import Mathlib

/-!
Verification of the dataset/time combinator scheduling core described by the
repository's specification, together with the task bodies of
`src/dags/solutions/downstream_dag.py`.

The repository's DAG files only declare schedules such as
`DatasetOrTimeSchedule(timetable=CronTriggerTimetable(...), datasets=(A | B))`;
the combinator evaluator, event ledger, clock trigger and scheduler decision
loop they exercise live in the external orchestration framework, not in the
repository.  Those components are therefore modelled here from the
specification's own contracts (sections 3 to 4.5).  The fetch tasks and
`generate_report` of the downstream DAG are embedded from the Python source.
-/

namespace SchedCore

/-- Modelled from the spec: section 3 `ConditionNode` — the immutable boolean
expression tree over named dataset leaves, a closed variant set
`Leaf / And / Or` (the code building these trees,
`Dataset("a") | Dataset("b")` etc., is in the external framework). -/
inductive ConditionNode where
  | Leaf (name : String)
  | And (left right : ConditionNode)
  | Or (left right : ConditionNode)
deriving DecidableEq, Repr

/-- Modelled from the spec: section 3 `UpdateEvent` — dataset update
notification: timestamp plus opaque payload (the dataset name is the key it
is stored under in the ledger). -/
structure UpdateEvent where
  timestamp : Nat
  payload : String
deriving DecidableEq, Repr

/-- Modelled from the spec: section 3 `Ledger` — mapping from dataset name to
the latest pending `UpdateEvent`, kept as an association list. -/
abbrev Ledger := List (String × UpdateEvent)

/-- Modelled from the spec: the ledger lookup backing `snapshot()` — the
pending event for a dataset name, or `none`. -/
def lookupPending : Ledger → String → Option UpdateEvent
  | [], _ => none
  | (k, v) :: rest, name => if k = name then some v else lookupPending rest name

/-- Modelled from the spec: section 4.3 insert/overwrite — the last-write-wins
insertion used by `recordUpdate`. -/
def insertEntry : Ledger → String → UpdateEvent → Ledger
  | [], name, e => [(name, e)]
  | (k, v) :: rest, name, e =>
      if k = name then (name, e) :: rest else (k, v) :: insertEntry rest name e

/-- Modelled from the spec: removal of every pending entry for one dataset
name, the single step of consumption. -/
def removeName : Ledger → String → Ledger
  | [], _ => []
  | (k, v) :: rest, name =>
      if k = name then removeName rest name else (k, v) :: removeName rest name

/-- Modelled from the spec: section 4.4 reset — clear the pending entries of
exactly the given dataset names, leaving every other entry in place. -/
def clearNames (L : Ledger) (names : List String) : Ledger :=
  names.foldl removeName L

/-- Modelled from the spec: the error kinds of section 7 (`ConfigError`,
`UnknownDatasetError`). -/
inductive SchedError where
  | configError
  | unknownDataset
deriving DecidableEq, Repr

/-- Duplicate-free union of dataset-name sets, used by
`collectSatisfiedLeaves` so that consumption receives each contributing name
once. -/
def nameUnion (xs ys : List String) : List String :=
  xs.foldr (fun x acc => if x ∈ acc then acc else x :: acc) ys

/-- Modelled from the spec: the expression's leaf set — the dataset names a
`ConditionNode` references. -/
def ConditionNode.leaves : ConditionNode → List String
  | .Leaf n => [n]
  | .And l r => nameUnion l.leaves r.leaves
  | .Or l r => nameUnion l.leaves r.leaves

/-- Modelled from the spec: section 4.1 `evaluate(ledger)` — a `Leaf(name)` is
true iff the ledger holds a pending event for `name`; `And` iff both operands
true; `Or` iff either operand true. -/
def evaluate : ConditionNode → Ledger → Bool
  | .Leaf n, L => (lookupPending L n).isSome
  | .And l r, L => evaluate l L && evaluate r L
  | .Or l r, L => evaluate l L || evaluate r L

/-- Modelled from the spec: section 4.1 `collectSatisfiedLeaves(ledger)` — the
leaf datasets whose pending events justify a true result: for `Or` only the
true side(s) contribute (both when both are true), for `And` both sides
contribute. -/
def collectSatisfiedLeaves : ConditionNode → Ledger → List String
  | .Leaf n, L => if (lookupPending L n).isSome then [n] else []
  | .And l r, L => nameUnion (collectSatisfiedLeaves l L) (collectSatisfiedLeaves r L)
  | .Or l r, L =>
      nameUnion (if evaluate l L then collectSatisfiedLeaves l L else [])
        (if evaluate r L then collectSatisfiedLeaves r L else [])

/-- Modelled from the spec: section 4.4 `isSatisfied(ledgerSnapshot)` — runs
`evaluate` then, only if true, `collectSatisfiedLeaves`. -/
def isSatisfied (expr : ConditionNode) (L : Ledger) : Bool × List String :=
  if evaluate expr L then (true, collectSatisfiedLeaves expr L) else (false, [])

/-- Modelled from the spec: section 4.3 `recordUpdate(datasetName, timestamp,
payload)` — fails with `UnknownDatasetError` when the name is not in the
expression's leaf set, otherwise inserts/overwrites the pending entry
(last-write-wins by arrival order). -/
def recordUpdate (expr : ConditionNode) (L : Ledger) (name : String)
    (ts : Nat) (payload : String) : Except SchedError Ledger :=
  if name ∈ expr.leaves then Except.ok (insertEntry L name ⟨ts, payload⟩)
  else Except.error SchedError.unknownDataset

/-- Modelled from the spec: sections 4.3 and 8 `consume(names)` — atomically
removes the pending entries for exactly the given names; a name with no
pending entry makes the call fail loudly rather than recover as a no-op. -/
def consume : Ledger → List String → Except SchedError Ledger
  | L, [] => Except.ok L
  | L, n :: rest =>
      match lookupPending L n with
      | none => Except.error SchedError.unknownDataset
      | some _ => consume (removeName L n) rest

/-- Modelled from the spec: section 4.1's purity requirement is stated against
this state-threading form of the evaluator — the embedding of an evaluator
that could in principle mutate the ledger it is given, returning the ledger
it leaves behind alongside the boolean. -/
def evaluateSt : ConditionNode → Ledger → Bool × Ledger
  | .Leaf n, L => ((lookupPending L n).isSome, L)
  | .And l r, L =>
      let a := evaluateSt l L
      let b := evaluateSt r a.2
      (a.1 && b.1, b.2)
  | .Or l r, L =>
      let a := evaluateSt l L
      let b := evaluateSt r a.2
      (a.1 || b.1, b.2)

/-- Modelled from the spec: section 3 `RunDecision` trigger kinds. -/
inductive TriggerKind where
  | TimeOnly
  | DatasetOnly
  | Both
deriving DecidableEq, Repr

/-- Modelled from the spec: section 3 `RunDecision` — trigger kind, timestamp,
and the set of dataset names whose events were consumed. -/
structure RunDecision where
  kind : TriggerKind
  timestamp : Nat
  consumed : List String
deriving DecidableEq, Repr

/-- Modelled from the spec: section 4.5 — the external signals the decision
loop reconciles: clock ticks and dataset-update event arrivals. -/
inductive Signal where
  | clockTick (t : Nat)
  | eventArrival (name : String) (t : Nat) (payload : String)
deriving DecidableEq, Repr

/-- The timestamp a signal carries. -/
def Signal.time : Signal → Nat
  | .clockTick t => t
  | .eventArrival _ t _ => t

/-- Whether a signal is a clock tick. -/
def Signal.isTick : Signal → Bool
  | .clockTick _ => true
  | .eventArrival _ _ _ => false

/-- Modelled from the spec: section 4.5 transition rule, one external signal.
On a clock tick the decision is emitted unconditionally: `Both` with the
consumed names when the combinator is satisfied, else `TimeOnly` with no
consumption.  On an event arrival the update is recorded (an unknown dataset
drops the event, non-fatally, per section 7), the combinator re-run, and a
`DatasetOnly` decision emitted only on satisfaction. -/
def processSignal (expr : ConditionNode) (L : Ledger) :
    Signal → List RunDecision × Ledger
  | .clockTick T =>
      let r := isSatisfied expr L
      if r.1 then ([⟨TriggerKind.Both, T, r.2⟩], clearNames L r.2)
      else ([⟨TriggerKind.TimeOnly, T, []⟩], L)
  | .eventArrival name t payload =>
      match recordUpdate expr L name t payload with
      | Except.error _ => ([], L)
      | Except.ok L1 =>
          let r := isSatisfied expr L1
          if r.1 then ([⟨TriggerKind.DatasetOnly, t, r.2⟩], clearNames L1 r.2)
          else ([], L1)

/-- Modelled from the spec: section 4.5 — the scheduler decision loop folded
over the serialized queue of external signals, accumulating the emitted
`RunDecision` stream and the final ledger. -/
def runLoop (expr : ConditionNode) : Ledger → List Signal → List RunDecision × Ledger
  | L, [] => ([], L)
  | L, s :: rest =>
      let step := processSignal expr L s
      let tail := runLoop expr step.2 rest
      (step.1 ++ tail.1, tail.2)

/-- Modelled from the spec: section 4.5 — the serialization order the
single-writer queue imposes on signals: earlier instants first, and at the
same instant a clock tick is processed before an event arrival. -/
def serializedBefore (s1 s2 : Signal) : Prop :=
  s1.time < s2.time ∨
    (s1.time = s2.time ∧ (s1.isTick = true ∨ s2.isTick = false))

/-- Modelled from the spec: section 4.2 clock trigger with a fixed interval
specification — `nextFireAfter(timestamp)`: the first fire timestamp of the
series `start, start + period, start + 2 * period, ...` strictly after the
given timestamp. -/
def nextFireAfter (start period t : Nat) : Nat :=
  if t < start then start
  else start + period * ((t - start) / period + 1)

end SchedCore

namespace DownstreamDag

/-- A Python value as the downstream DAG's tasks handle them: `None`,
strings, numbers, dicts keyed by string, and lists. -/
inductive PyVal where
  | pynone
  | pystr (s : String)
  | pynum (n : Int)
  | pydict (entries : List (String × PyVal))
  | pylist (xs : List PyVal)

/-- Python `is None`. -/
def PyVal.isNone : PyVal → Bool
  | .pynone => true
  | _ => false

/-- Python truthiness: `None`, empty containers, the empty string and zero
are falsy, everything else truthy. -/
def truthy : PyVal → Bool
  | .pynone => false
  | .pystr s => !s.isEmpty
  | .pynum n => n != 0
  | .pydict es => !es.isEmpty
  | .pylist xs => !xs.isEmpty

/-- Python subscript `v[k]` with a string key: a dict lookup that raises
`KeyError` on a missing key and `TypeError` on a non-dict value. -/
def pyIndex (v : PyVal) (k : String) : Except String PyVal :=
  match v with
  | .pydict es =>
      match es.find? (fun p => p.1 == k) with
      | some p => Except.ok p.2
      | none => Except.error ("KeyError: " ++ k)
  | _ => Except.error "TypeError: value is not subscriptable"

/-- Python subscript `v[i]` with an integer index into a list. -/
def pyItem (v : PyVal) (i : Nat) : Except String PyVal :=
  match v with
  | .pylist xs =>
      match xs.get? i with
      | some x => Except.ok x
      | none => Except.error "IndexError: list index out of range"
  | _ => Except.error "TypeError: value is not subscriptable"

/-- Rendering of a value inside an f-string (the exact text is peripheral to
the DAG's behaviour; only totality matters here). -/
def PyVal.render : PyVal → String
  | .pynone => "None"
  | .pystr s => s
  | .pynum n => toString n
  | .pydict es => "dict(" ++ toString es.length ++ " entries)"
  | .pylist xs => "list(" ++ toString xs.length ++ " items)"

/-- `fetch_max_temp_data` (downstream_dag.py lines 54-63): the XCom pull is
the external input `pulled`; the body is
`json.loads(data) if data is not None else None`, with `json.loads`
supplied as the external parser. -/
def fetch_max_temp_data (jsonLoads : String → Except String PyVal)
    (pulled : Option String) : Except String (Option PyVal) :=
  match pulled with
  | some s => Except.map (fun v => some v) (jsonLoads s)
  | none => Except.ok none

/-- `fetch_wind_speed_data` (downstream_dag.py lines 65-74): same body shape
as `fetch_max_temp_data` over the `get_wind_speed` pull. -/
def fetch_wind_speed_data (jsonLoads : String → Except String PyVal)
    (pulled : Option String) : Except String (Option PyVal) :=
  match pulled with
  | some s => Except.map (fun v => some v) (jsonLoads s)
  | none => Except.ok none

/-- `fetch_wind_direction_data` (downstream_dag.py lines 76-85): same body
shape over the `get_wind_direction` pull. -/
def fetch_wind_direction_data (jsonLoads : String → Except String PyVal)
    (pulled : Option String) : Except String (Option PyVal) :=
  match pulled with
  | some s => Except.map (fun v => some v) (jsonLoads s)
  | none => Except.ok none

/-- `fetch_wildcard_data` (downstream_dag.py lines 87-96): same body shape
over the `get_wildcard_data` pull. -/
def fetch_wildcard_data (jsonLoads : String → Except String PyVal)
    (pulled : Option String) : Except String (Option PyVal) :=
  match pulled with
  | some s => Except.map (fun v => some v) (jsonLoads s)
  | none => Except.ok none

/-- The `if max_temp:` branch of `generate_report` (downstream_dag.py lines
128-136): reads `city_coordinates["city"]` first, then
`max_temp["daily"]["time"][0]`, then logs using
`max_temp['daily']['temperature_2m_max'][0]`; any failed access raises. -/
def reportMaxTemp (max_temp city_coordinates : PyVal) :
    Except String (List String) :=
  if truthy max_temp then
    match pyIndex city_coordinates "city" with
    | Except.error e => Except.error e
    | Except.ok city =>
      match pyIndex max_temp "daily" with
      | Except.error e => Except.error e
      | Except.ok daily =>
        match pyIndex daily "time" with
        | Except.error e => Except.error e
        | Except.ok times =>
          match pyItem times 0 with
          | Except.error e => Except.error e
          | Except.ok date =>
            match pyIndex max_temp "daily" with
            | Except.error e => Except.error e
            | Except.ok daily2 =>
              match pyIndex daily2 "temperature_2m_max" with
              | Except.error e => Except.error e
              | Except.ok temps =>
                match pyItem temps 0 with
                | Except.error e => Except.error e
                | Except.ok temp0 =>
                    Except.ok ["--------------------------",
                      "Historical Weather data for " ++ city.render
                        ++ " on " ++ date.render ++ ":",
                      "Max temperature data: " ++ temp0.render]
  else Except.ok []

/-- The `if wind_speed:` branch of `generate_report` (lines 137-140): logs
`wind_speed['daily']['wind_speed_10m_max'][0]`. -/
def reportWindSpeed (wind_speed : PyVal) : Except String (List String) :=
  if truthy wind_speed then
    match pyIndex wind_speed "daily" with
    | Except.error e => Except.error e
    | Except.ok daily =>
      match pyIndex daily "wind_speed_10m_max" with
      | Except.error e => Except.error e
      | Except.ok speeds =>
        match pyItem speeds 0 with
        | Except.error e => Except.error e
        | Except.ok v => Except.ok ["Wind speed data: " ++ v.render]
  else Except.ok []

/-- The `if wind_direction:` branch of `generate_report` (lines 141-144):
logs `wind_direction['daily']['wind_direction_10m_dominant'][0]`. -/
def reportWindDirection (wind_direction : PyVal) : Except String (List String) :=
  if truthy wind_direction then
    match pyIndex wind_direction "daily" with
    | Except.error e => Except.error e
    | Except.ok daily =>
      match pyIndex daily "wind_direction_10m_dominant" with
      | Except.error e => Except.error e
      | Except.ok dirs =>
        match pyItem dirs 0 with
        | Except.error e => Except.error e
        | Except.ok v => Except.ok ["Wind direction data: " ++ v.render]
  else Except.ok []

/-- `generate_report` (downstream_dag.py lines 109-147), with `tabulate`
supplied as the external formatter.  The `cities_weather` table is logged
when it `is not None`; the `max_temp`, `wind_speed` and `wind_direction`
branches run in order and may raise; the separator line is always logged and
the `wildcard` value is logged whole (no subscripting) when truthy.  The
result is the sequence of log lines, or the first raised error. -/
def generate_report (tab : PyVal → String)
    (cities_weather max_temp wind_speed wind_direction wildcard
      city_coordinates : PyVal) : Except String (List String) :=
  let l1 := if cities_weather.isNone then []
    else ["Current Weather data:", tab cities_weather]
  match reportMaxTemp max_temp city_coordinates with
  | Except.error e => Except.error e
  | Except.ok l2 =>
    match reportWindSpeed wind_speed with
    | Except.error e => Except.error e
    | Except.ok l3 =>
      match reportWindDirection wind_direction with
      | Except.error e => Except.error e
      | Except.ok l4 =>
          Except.ok (l1 ++ l2 ++ l3 ++ l4
            ++ ["--------------------------"]
            ++ (if truthy wildcard then
                  ["Wildcard data: " ++ wildcard.render] else []))

end DownstreamDag

namespace SchedCore

theorem nameUnion_cons (x : String) (xs ys : List String) :
    nameUnion (x :: xs) ys =
      if x ∈ nameUnion xs ys then nameUnion xs ys else x :: nameUnion xs ys := rfl

theorem mem_nameUnion (xs ys : List String) (n : String) :
    n ∈ nameUnion xs ys ↔ n ∈ xs ∨ n ∈ ys := by
  induction xs generalizing n with
  | nil => simp [nameUnion]
  | cons x rest ih =>
    rw [nameUnion_cons]
    split
    · rename_i hx
      rw [ih n]
      simp only [List.mem_cons]
      constructor
      · tauto
      · rintro ((rfl | h) | h)
        · exact (ih n).mp hx
        · exact Or.inl h
        · exact Or.inr h
    · simp only [List.mem_cons, ih]
      tauto

theorem lookupPending_insertEntry_self (L : Ledger) (name : String)
    (e : UpdateEvent) :
    lookupPending (insertEntry L name e) name = some e := by
  induction L with
  | nil => simp [insertEntry, lookupPending]
  | cons p rest ih =>
    obtain ⟨k, v⟩ := p
    by_cases h : k = name
    · simp [insertEntry, h, lookupPending]
    · simp [insertEntry, h, lookupPending, ih]

theorem lookupPending_removeName_self (L : Ledger) (name : String) :
    lookupPending (removeName L name) name = none := by
  induction L with
  | nil => rfl
  | cons p rest ih =>
    obtain ⟨k, v⟩ := p
    by_cases h : k = name
    · simp [removeName, h, ih]
    · simp [removeName, h, lookupPending, ih]

theorem lookupPending_removeName_ne (L : Ledger) (m n : String) (h : n ≠ m) :
    lookupPending (removeName L m) n = lookupPending L n := by
  induction L with
  | nil => rfl
  | cons p rest ih =>
    obtain ⟨k, v⟩ := p
    by_cases hk : k = m
    · subst hk
      have hkn : ¬ k = n := fun e => h e.symm
      simp [removeName, lookupPending, hkn, ih]
    · simp [removeName, hk, lookupPending, ih]

theorem clearNames_cons (L : Ledger) (m : String) (rest : List String) :
    clearNames L (m :: rest) = clearNames (removeName L m) rest := rfl

theorem lookupPending_clearNames_not_mem (L : Ledger) (names : List String)
    (n : String) (h : n ∉ names) :
    lookupPending (clearNames L names) n = lookupPending L n := by
  induction names generalizing L with
  | nil => rfl
  | cons m rest ih =>
    rw [clearNames_cons]
    have hn : n ≠ m := fun e => h (e ▸ List.mem_cons_self m rest)
    rw [ih (removeName L m) (fun hr => h (List.mem_cons_of_mem m hr))]
    exact lookupPending_removeName_ne L m n hn

/-- C1: for every expression tree and every ledger state, a clock tick at
time `T` on which the combinator expression is not satisfied still emits
`RunDecision(TimeOnly, T, no names)` and leaves the ledger unchanged: the
periodic trigger fires unconditionally on its cadence, and the dataset
condition is an additional trigger path, never a gate on the time trigger. -/
theorem clock_tick_fires_unconditionally (expr : ConditionNode) (L : Ledger)
    (T : Nat) (h : evaluate expr L = false) :
    processSignal expr L (Signal.clockTick T) =
      ([⟨TriggerKind.TimeOnly, T, []⟩], L) := by
  simp [processSignal, isSatisfied, h]

theorem clock_tick_fires_unconditionally_witness :
    evaluate (ConditionNode.Leaf "A") [] = false ∧
      processSignal (ConditionNode.Leaf "A") [] (Signal.clockTick 17) =
        ([⟨TriggerKind.TimeOnly, 17, []⟩], []) :=
  ⟨rfl, clock_tick_fires_unconditionally (ConditionNode.Leaf "A") [] 17 rfl⟩

/-- C2: for every Or-expression over satisfied subtrees, the satisfaction
decision consumes the whole satisfied subtree's leaves, not just one minimal
witness: when both sides are true, `isSatisfied` reports the union of both
sides' contributing leaves, and clearing those names leaves every dataset
outside them pending exactly as before. -/
theorem or_satisfaction_clears_both_sides (l r : ConditionNode) (L : Ledger)
    (hl : evaluate l L = true) (hr : evaluate r L = true) :
    isSatisfied (ConditionNode.Or l r) L =
      (true, nameUnion (collectSatisfiedLeaves l L) (collectSatisfiedLeaves r L)) ∧
    (∀ n, n ∈ collectSatisfiedLeaves l L ∨ n ∈ collectSatisfiedLeaves r L →
      n ∈ (isSatisfied (ConditionNode.Or l r) L).2) ∧
    (∀ n, n ∉ (isSatisfied (ConditionNode.Or l r) L).2 →
      lookupPending (clearNames L (isSatisfied (ConditionNode.Or l r) L).2) n =
        lookupPending L n) := by
  have hiss : isSatisfied (ConditionNode.Or l r) L =
      (true, nameUnion (collectSatisfiedLeaves l L) (collectSatisfiedLeaves r L)) := by
    simp [isSatisfied, evaluate, collectSatisfiedLeaves, hl, hr]
  refine ⟨hiss, ?_, ?_⟩
  · intro n hn
    rw [hiss]
    exact (mem_nameUnion _ _ n).mpr hn
  · intro n hn
    exact lookupPending_clearNames_not_mem L _ n hn

theorem or_satisfaction_clears_both_sides_witness :
    isSatisfied (ConditionNode.Or (ConditionNode.Leaf "A") (ConditionNode.Leaf "B"))
        [("A", ⟨1, "a"⟩), ("B", ⟨2, "b"⟩), ("C", ⟨3, "c"⟩)] = (true, ["A", "B"]) ∧
      lookupPending
        (clearNames [("A", ⟨1, "a"⟩), ("B", ⟨2, "b"⟩), ("C", ⟨3, "c"⟩)]
          (isSatisfied
            (ConditionNode.Or (ConditionNode.Leaf "A") (ConditionNode.Leaf "B"))
            [("A", ⟨1, "a"⟩), ("B", ⟨2, "b"⟩), ("C", ⟨3, "c"⟩)]).2) "C" =
        some ⟨3, "c"⟩ := by
  have h := or_satisfaction_clears_both_sides (ConditionNode.Leaf "A")
    (ConditionNode.Leaf "B") [("A", ⟨1, "a"⟩), ("B", ⟨2, "b"⟩), ("C", ⟨3, "c"⟩)]
    rfl rfl
  refine ⟨h.1, ?_⟩
  rw [h.2.2 "C" (by decide)]
  rfl

/-- C3: for the expression `Dataset("X") & Dataset("Y")` starting from an
empty ledger, event `X` at `t1` and event `Y` at `t2` with `t1 < t2` and no
intervening clock tick produce exactly one
`RunDecision(DatasetOnly, t2, X and Y)` — none after `X` alone, since `And`
is true only when both operands are — and the ledger is empty afterward. -/
theorem and_fires_once_after_both (t1 t2 : Nat) (p1 p2 : String)
    (_h : t1 < t2) :
    runLoop (ConditionNode.And (ConditionNode.Leaf "X") (ConditionNode.Leaf "Y")) []
      [Signal.eventArrival "X" t1 p1, Signal.eventArrival "Y" t2 p2] =
      ([⟨TriggerKind.DatasetOnly, t2, ["X", "Y"]⟩], []) := by
  simp [runLoop, processSignal, recordUpdate, insertEntry, lookupPending,
    isSatisfied, evaluate, collectSatisfiedLeaves, clearNames, removeName,
    ConditionNode.leaves, nameUnion]

theorem and_fires_once_after_both_witness :
    (1 : Nat) < 2 ∧
      runLoop (ConditionNode.And (ConditionNode.Leaf "X") (ConditionNode.Leaf "Y")) []
        [Signal.eventArrival "X" 1 "x", Signal.eventArrival "Y" 2 "y"] =
        ([⟨TriggerKind.DatasetOnly, 2, ["X", "Y"]⟩], []) :=
  ⟨by decide, and_fires_once_after_both 1 2 "x" "y" (by decide)⟩

/-- C5: `recordUpdate` fails with `UnknownDatasetError` exactly when the
dataset name is outside the expression's leaf set (and the decision loop then
drops the event, leaving the ledger unchanged); otherwise it inserts or
overwrites the pending entry, last-write-wins by arrival order: a second
record for the same name succeeds and wins whatever timestamp it carries. -/
theorem recordUpdate_unknown_and_last_write_wins (expr : ConditionNode)
    (L : Ledger) (name : String) (ts : Nat) (p : String) :
    (name ∉ expr.leaves →
      recordUpdate expr L name ts p = Except.error SchedError.unknownDataset ∧
      processSignal expr L (Signal.eventArrival name ts p) = ([], L)) ∧
    (name ∈ expr.leaves →
      recordUpdate expr L name ts p = Except.ok (insertEntry L name ⟨ts, p⟩) ∧
      ∀ ts2 p2,
        recordUpdate expr (insertEntry L name ⟨ts, p⟩) name ts2 p2 =
          Except.ok (insertEntry (insertEntry L name ⟨ts, p⟩) name ⟨ts2, p2⟩) ∧
        lookupPending (insertEntry (insertEntry L name ⟨ts, p⟩) name ⟨ts2, p2⟩)
            name = some ⟨ts2, p2⟩) := by
  constructor
  · intro h
    constructor
    · simp [recordUpdate, h]
    · simp [processSignal, recordUpdate, h]
  · intro h
    refine ⟨by simp [recordUpdate, h], ?_⟩
    intro ts2 p2
    exact ⟨by simp [recordUpdate, h], lookupPending_insertEntry_self _ _ _⟩

theorem recordUpdate_unknown_and_last_write_wins_witness :
    recordUpdate (ConditionNode.Leaf "A") [] "B" 5 "x" =
      Except.error SchedError.unknownDataset ∧
    lookupPending (insertEntry (insertEntry [] "A" ⟨5, "x"⟩) "A" ⟨3, "y"⟩) "A" =
      some ⟨3, "y"⟩ := by
  refine ⟨?_, ?_⟩
  · exact ((recordUpdate_unknown_and_last_write_wins (ConditionNode.Leaf "A")
      [] "B" 5 "x").1 (by decide)).1
  · exact (((recordUpdate_unknown_and_last_write_wins (ConditionNode.Leaf "A")
      [] "A" 5 "x").2 (by decide)).2 3 "y").2

theorem removeName_sublist (L : Ledger) (name : String) :
    List.Sublist (removeName L name) L := by
  induction L with
  | nil => exact List.Sublist.refl []
  | cons p rest ih =>
    obtain ⟨k, v⟩ := p
    simp only [removeName]
    split
    · exact List.Sublist.cons _ ih
    · exact List.Sublist.cons₂ _ ih

theorem consume_ok_sublist (names : List String) : ∀ L L' : Ledger,
    consume L names = Except.ok L' → List.Sublist L' L := by
  induction names with
  | nil =>
    intro L L' h
    simp only [consume] at h
    cases h
    exact List.Sublist.refl L
  | cons n rest ih =>
    intro L L' h
    simp only [consume] at h
    cases hl : lookupPending L n with
    | none => rw [hl] at h; cases h
    | some e =>
      rw [hl] at h
      exact (ih _ _ h).trans (removeName_sublist L n)

theorem lookupPending_none_of_sublist {L L' : Ledger} (hs : List.Sublist L' L)
    (n : String) (h : lookupPending L n = none) :
    lookupPending L' n = none := by
  induction hs with
  | slnil => rfl
  | cons p _ ih =>
    obtain ⟨k, v⟩ := p
    simp only [lookupPending] at h
    split at h
    · exact absurd h (by simp)
    · exact ih h
  | cons₂ p _ ih =>
    obtain ⟨k, v⟩ := p
    simp only [lookupPending] at h ⊢
    split at h
    · exact absurd h (by simp)
    · rename_i hk
      rw [if_neg hk]
      exact ih h

theorem consume_ok_absent (names : List String) : ∀ L L' : Ledger,
    consume L names = Except.ok L' → ∀ n ∈ names, lookupPending L' n = none := by
  induction names with
  | nil => intro L L' _ n hn; cases hn
  | cons m rest ih =>
    intro L L' h n hn
    simp only [consume] at h
    cases hl : lookupPending L m with
    | none => rw [hl] at h; cases h
    | some e =>
      rw [hl] at h
      rcases List.mem_cons.mp hn with rfl | hn'
      · exact lookupPending_none_of_sublist (consume_ok_sublist rest _ _ h) n
          (lookupPending_removeName_self L n)
      · exact ih _ _ h n hn'

/-- C6 counterexample: at the empty name set the claim fails — the first
`consume` of the empty set succeeds, and the second `consume` of the same
(empty) set on the resulting ledger succeeds again as a silent no-op instead
of failing with an error. -/
theorem consume_twice_empty_silent_noop :
    Except.bind (consume [("A", ⟨1, "a"⟩)] []) (fun L1 => consume L1 []) =
      Except.ok [("A", ⟨1, "a"⟩)] := rfl

/-- C6 (amended to nonempty name sets): for every nonempty set of dataset
names `S`, calling `consume S` a second time after a successful `consume S`
— when the entries are already absent — fails loudly with
`UnknownDatasetError`; it is never a silent no-op. -/
theorem consume_twice_fails_nonempty (L L' : Ledger) (S : List String)
    (hne : S ≠ []) (h : consume L S = Except.ok L') :
    consume L' S = Except.error SchedError.unknownDataset := by
  cases S with
  | nil => exact absurd rfl hne
  | cons n rest =>
    have habs : lookupPending L' n = none :=
      consume_ok_absent (n :: rest) L L' h n (List.mem_cons_self n rest)
    simp only [consume, habs]

theorem consume_twice_fails_nonempty_witness :
    consume [("A", ⟨1, "a"⟩)] ["A"] = Except.ok [] ∧
      consume [] ["A"] = Except.error SchedError.unknownDataset :=
  ⟨rfl, consume_twice_fails_nonempty [("A", ⟨1, "a"⟩)] [] ["A"] (by decide) rfl⟩

/-- C8: for every fixed-interval periodic specification (positive period) and
start boundary, `nextFireAfter` is strictly progressing — `nextFireAfter t > t`
for every timestamp `t` — so the fire sequence obtained by iterating it is
strictly increasing, with no two fires at the same instant. -/
theorem nextFireAfter_strictly_increasing (start period t : Nat)
    (hp : 0 < period) :
    t < nextFireAfter start period t ∧
      StrictMono fun n => (nextFireAfter start period)^[n] t := by
  have key : ∀ u : Nat, u < nextFireAfter start period u := by
    intro u
    unfold nextFireAfter
    split
    · assumption
    · rename_i hu
      push_neg at hu
      have hmod : (u - start) % period < period := Nat.mod_lt _ hp
      have hdm : period * ((u - start) / period) + (u - start) % period = u - start :=
        Nat.div_add_mod (u - start) period
      rw [Nat.mul_add, Nat.mul_one]
      omega
  refine ⟨key t, ?_⟩
  apply strictMono_nat_of_lt_succ
  intro n
  rw [Function.iterate_succ_apply']
  exact key _

theorem nextFireAfter_strictly_increasing_witness :
    (0 : Nat) < 5 ∧ 7 < nextFireAfter 3 5 7 :=
  ⟨by decide, (nextFireAfter_strictly_increasing 3 5 7 (by decide)).1⟩

theorem processSignal_timestamps_sublist (expr : ConditionNode) (L : Ledger)
    (s : Signal) :
    List.Sublist ((processSignal expr L s).1.map RunDecision.timestamp)
      [s.time] := by
  cases s with
  | clockTick T =>
    simp only [processSignal, Signal.time]
    split
    · simp
    · simp
  | eventArrival name t payload =>
    simp only [processSignal, Signal.time]
    cases recordUpdate expr L name t payload with
    | error e => simp
    | ok L1 =>
      simp only []
      split
      · simp
      · simp

theorem runLoop_timestamps_sublist (expr : ConditionNode) :
    ∀ (L : Ledger) (sigs : List Signal),
      List.Sublist ((runLoop expr L sigs).1.map RunDecision.timestamp)
        (sigs.map Signal.time) := by
  intro L sigs
  induction sigs generalizing L with
  | nil => simp [runLoop]
  | cons s rest ih =>
    simp only [runLoop, List.map_cons, List.map_append]
    exact List.Sublist.append (processSignal_timestamps_sublist expr L s) (ih _)

/-- C4: for every sequence of external signals presented to the decision loop
in the serialization order of the single-writer queue — non-decreasing
instants, and at the same instant a clock tick before an event arrival — the
emitted run decisions carry non-decreasing timestamps relative to the signals
that produced them, and each signal yields at most one decision, so the
processing order creates no double run for the same instant. -/
theorem decisions_nondecreasing_under_serialization (expr : ConditionNode)
    (L : Ledger) (sigs : List Signal)
    (hser : List.Pairwise serializedBefore sigs) :
    List.Pairwise (fun a b : RunDecision => a.timestamp ≤ b.timestamp)
        (runLoop expr L sigs).1 ∧
      (runLoop expr L sigs).1.length ≤ sigs.length := by
  have htime : List.Pairwise (fun a b : Nat => a ≤ b) (sigs.map Signal.time) := by
    rw [List.pairwise_map]
    refine hser.imp ?_
    intro a b h
    rcases h with h | ⟨h, _⟩
    · exact Nat.le_of_lt h
    · exact Nat.le_of_eq h
  have hsub := runLoop_timestamps_sublist expr L sigs
  constructor
  · have hdec := htime.sublist hsub
    rw [List.pairwise_map] at hdec
    exact hdec
  · have h1 := hsub.length_le
    simpa using h1

theorem decisions_nondecreasing_under_serialization_witness :
    List.Pairwise serializedBefore
        [Signal.clockTick 5, Signal.eventArrival "A" 5 "p", Signal.clockTick 6] ∧
      List.Pairwise (fun a b : RunDecision => a.timestamp ≤ b.timestamp)
        (runLoop (ConditionNode.Leaf "A") []
          [Signal.clockTick 5, Signal.eventArrival "A" 5 "p",
            Signal.clockTick 6]).1 ∧
      (runLoop (ConditionNode.Leaf "A") []
          [Signal.clockTick 5, Signal.eventArrival "A" 5 "p",
            Signal.clockTick 6]).1.length ≤ 3 := by
  have hser : List.Pairwise serializedBefore
      [Signal.clockTick 5, Signal.eventArrival "A" 5 "p", Signal.clockTick 6] := by
    simp [List.pairwise_cons, serializedBefore, Signal.time, Signal.isTick]
  have h := decisions_nondecreasing_under_serialization (ConditionNode.Leaf "A")
    [] [Signal.clockTick 5, Signal.eventArrival "A" 5 "p", Signal.clockTick 6]
    hser
  exact ⟨hser, h.1, h.2⟩

/-- C7: for every expression `E` and every ledger state `L`, evaluation is
deterministic and side-effect-free: the state-threading evaluator returns
exactly the pure `evaluate E L` and hands back `L` unchanged, so a repeated
call on the ledger it leaves behind returns the same result again. -/
theorem evaluate_deterministic_and_pure (E : ConditionNode) (L : Ledger) :
    evaluateSt E L = (evaluate E L, L) ∧
      evaluateSt E (evaluateSt E L).2 = evaluateSt E L := by
  have key : ∀ (F : ConditionNode) (M : Ledger), evaluateSt F M = (evaluate F M, M) := by
    intro F
    induction F with
    | Leaf n => intro M; rfl
    | And l r ihl ihr => intro M; simp [evaluateSt, evaluate, ihl, ihr]
    | Or l r ihl ihr => intro M; simp [evaluateSt, evaluate, ihl, ihr]
  refine ⟨key E L, ?_⟩
  rw [key E L]
  exact key E L

end SchedCore

namespace DownstreamDag

/-- C9: every JSON-parsing fetch task of the downstream DAG
(`fetch_max_temp_data`, `fetch_wind_speed_data`, `fetch_wind_direction_data`,
`fetch_wildcard_data`) returns `None` rather than raising when the upstream
XCom pull yields `None`: whatever `json.loads` does — even if it would fail
on every input — it is applied only when the pulled data is not `None`. -/
theorem fetch_tasks_return_none_on_none_pull
    (jsonLoads : String → Except String PyVal) :
    fetch_max_temp_data jsonLoads none = Except.ok none ∧
    fetch_wind_speed_data jsonLoads none = Except.ok none ∧
    fetch_wind_direction_data jsonLoads none = Except.ok none ∧
    fetch_wildcard_data jsonLoads none = Except.ok none :=
  ⟨rfl, rfl, rfl, rfl⟩

theorem reportMaxTemp_none (cc : PyVal) :
    reportMaxTemp PyVal.pynone cc = Except.ok [] := rfl

theorem reportWindSpeed_none : reportWindSpeed PyVal.pynone = Except.ok [] := rfl

theorem reportWindDirection_none :
    reportWindDirection PyVal.pynone = Except.ok [] := rfl

theorem generate_report_isOk (tab : PyVal → String) (cw mt ws wd wc cc : PyVal) :
    (generate_report tab cw mt ws wd wc cc).isOk =
      ((reportMaxTemp mt cc).isOk && (reportWindSpeed ws).isOk &&
        (reportWindDirection wd).isOk) := by
  simp only [generate_report]
  cases reportMaxTemp mt cc with
  | error e => simp [Except.isOk, Except.toBool]
  | ok l2 =>
    cases reportWindSpeed ws with
    | error e => simp [Except.isOk, Except.toBool]
    | ok l3 =>
      cases reportWindDirection wd with
      | error e => simp [Except.isOk, Except.toBool]
      | ok l4 => simp [Except.isOk, Except.toBool]

/-- C10: `generate_report` reads into each of `max_temp`, `wind_speed`,
`wind_direction` and `wildcard` only inside that argument's truthiness guard,
so a `None` value for any of them never causes a failed dict access — the
report still succeeds whenever it succeeded before, and with all four `None`
it always succeeds; but whenever `max_temp` is truthy it unconditionally
indexes `city_coordinates["city"]`, so a `city_coordinates` on which that
access fails makes the whole report fail with that very error. -/
theorem generate_report_guards (tab : PyVal → String)
    (cw mt ws wd wc cc : PyVal) (e : String) :
    ((generate_report tab cw mt ws wd wc cc).isOk = true →
      (generate_report tab cw PyVal.pynone ws wd wc cc).isOk = true ∧
      (generate_report tab cw mt PyVal.pynone wd wc cc).isOk = true ∧
      (generate_report tab cw mt ws PyVal.pynone wc cc).isOk = true ∧
      (generate_report tab cw mt ws wd PyVal.pynone cc).isOk = true) ∧
    (generate_report tab cw PyVal.pynone PyVal.pynone PyVal.pynone
        PyVal.pynone cc).isOk = true ∧
    (truthy mt = true → pyIndex cc "city" = Except.error e →
      generate_report tab cw mt ws wd wc cc = Except.error e) := by
  refine ⟨?_, ?_, ?_⟩
  · intro h
    rw [generate_report_isOk] at h
    simp only [Bool.and_eq_true] at h
    obtain ⟨⟨h2, h3⟩, h4⟩ := h
    have hok : (Except.ok ([] : List String) : Except String (List String)).isOk
        = true := rfl
    refine ⟨?_, ?_, ?_, ?_⟩ <;> rw [generate_report_isOk] <;>
      simp only [reportMaxTemp_none, reportWindSpeed_none, reportWindDirection_none,
        hok, h2, h3, h4, Bool.and_self, Bool.and_true, Bool.true_and]
  · rw [generate_report_isOk]
    simp [reportMaxTemp_none, reportWindSpeed_none, reportWindDirection_none,
      Except.isOk, Except.toBool]
  · intro hmt herr
    have hrep : reportMaxTemp mt cc = Except.error e := by
      unfold reportMaxTemp
      rw [if_pos hmt, herr]
    simp only [generate_report, hrep]

theorem generate_report_guards_witness :
    (generate_report PyVal.render PyVal.pynone PyVal.pynone PyVal.pynone
        PyVal.pynone PyVal.pynone PyVal.pynone).isOk = true ∧
      generate_report PyVal.render PyVal.pynone
          (PyVal.pydict [("daily", PyVal.pynone)]) PyVal.pynone PyVal.pynone
          PyVal.pynone PyVal.pynone =
        Except.error "TypeError: value is not subscriptable" := by
  have h := generate_report_guards PyVal.render PyVal.pynone
    (PyVal.pydict [("daily", PyVal.pynone)]) PyVal.pynone PyVal.pynone
    PyVal.pynone PyVal.pynone "TypeError: value is not subscriptable"
  exact ⟨h.2.1, h.2.2 rfl rfl⟩

end DownstreamDag
